import Mathlib

/-!
Shallow embedding of the cloudigrade image-inspection orchestration pipeline
(`api/clouds/aws/tasks.py`) and proofs about it.

Python strings are modelled as Lean `String`; the few string operations the
code uses (trailing-period strip, lowercasing, substring membership) are
implemented below over `List Char` so that every definition is executable by
the kernel. Machine-image records, queue messages and the elastic compute
group are modelled as plain structures; the database is a list of records
with first-match lookup semantics (the repository guarantees at most one
record per EC2 AMI ID). External AWS calls are modelled by passing their
observable outcome in as an argument and recording the effects the task
performs in the returned value.
-/

/-! ## String helpers (Python semantics over List Char) -/

/-- Python list/str prefix test used to implement substring membership. -/
def starts_with : List Char → List Char → Bool
  | [], _ => true
  | _ :: _, [] => false
  | a :: as, b :: bs => a = b && starts_with as bs

/-- Python `needle in haystack` substring membership for strings. -/
def contains_substring (haystack needle : List Char) : Bool :=
  match haystack with
  | [] => starts_with needle []
  | _ :: rest => starts_with needle haystack || contains_substring rest needle

/-- ASCII lowercasing of one character, as Python `str.lower` does for the
ASCII error messages involved here. -/
def py_char_lower (c : Char) : Char :=
  if 65 ≤ c.toNat ∧ c.toNat ≤ 90 then Char.ofNat (c.toNat + 32) else c

/-- Python `str.lower` over the characters of a string. -/
def py_lower (s : List Char) : List Char := s.map py_char_lower

/-- Python `s.endswith(".")`. -/
def str_endswith_period (s : String) : Bool :=
  match s.data.getLast? with
  | some c => c = '.'
  | none => false

/-- Python `s[:-1]`. -/
def str_drop_last (s : String) : String := ⟨s.data.dropLast⟩

/-! ## Data model -/

/-- The status enum of `api.models.MachineImage` (values used throughout
`tasks.py`: PENDING, PREPARING, INSPECTING, INSPECTED, ERROR, UNAVAILABLE). -/
inductive ImageStatus
  | PENDING
  | PREPARING
  | INSPECTING
  | INSPECTED
  | ERROR
  | UNAVAILABLE
deriving DecidableEq, Repr

/-- One stored machine image: the fields of `MachineImage` (plus its
`AwsMachineImage` EC2 AMI id and marketplace flag) that `tasks.py` reads or
writes. -/
structure MachineImageRec where
  ec2_ami_id : String
  status : ImageStatus
  inspection_json : Option String
  aws_marketplace_image : Bool
deriving DecidableEq, Repr

/-- A ready-volumes work-queue message (`{"ami_id": ..., "volume_id": ...}`). -/
structure QueueMessage where
  ami_id : String
  volume_id : String
deriving DecidableEq, Repr

/-- A provider error as surfaced by botocore `ClientError`:
`e.response["Error"]["Code"]` and `e.response["Error"]["Message"]`. -/
structure ClientError where
  code : String
  message : String
deriving DecidableEq, Repr

/-- First-match lookup of a machine image by its EC2 AMI id
(`AwsMachineImage.objects.get(ec2_ami_id=...)`, unique per id). -/
def find_image (db : List MachineImageRec) (ec2_ami_id : String) :
    Option MachineImageRec :=
  db.find? (fun r => r.ec2_ami_id == ec2_ami_id)

/-- Whether a record for the given EC2 AMI id exists. -/
def image_exists (db : List MachineImageRec) (ec2_ami_id : String) : Bool :=
  (find_image db ec2_ami_id).isSome

/-- The stored status of the given EC2 AMI id, if a record exists. -/
def image_status (db : List MachineImageRec) (ec2_ami_id : String) :
    Option ImageStatus :=
  (find_image db ec2_ami_id).map (fun r => r.status)

/-- The stored inspection payload of the given EC2 AMI id, if a record
exists. -/
def image_inspection_json (db : List MachineImageRec) (ec2_ami_id : String) :
    Option (Option String) :=
  (find_image db ec2_ami_id).map (fun r => r.inspection_json)

/-- Set the status of the (first, hence unique) record with the given EC2 AMI
id: `machine_image.status = ...; machine_image.save()`. -/
def set_image_status (db : List MachineImageRec) (ec2_ami_id : String)
    (st : ImageStatus) : List MachineImageRec :=
  match db with
  | [] => []
  | r :: rest =>
    if r.ec2_ami_id == ec2_ami_id then { r with status := st } :: rest
    else r :: set_image_status rest ec2_ami_id st

/-! ## Cluster scaler: scale_up_inspection_cluster (tasks.py lines 566-618) -/

/-- The elastic compute group (AWS auto scaling group) state the scaler
reads. -/
structure AutoScalingGroup where
  min_size : Nat
  max_size : Nat
  desired_capacity : Nat
  instances : List String
deriving DecidableEq, Repr

/-- Modelled from the spec: `util.aws.is_scaled_down` is not under src; per
the spec the scaler only proceeds when the elastic compute group is fully
scaled to zero, all of: instance count 0, min/max/desired all 0. -/
def is_scaled_down (asg : AutoScalingGroup) : Bool :=
  asg.instances.length == 0 && asg.min_size == 0 && asg.max_size == 0
    && asg.desired_capacity == 0

/-- Modelled from the spec: `util.aws.sqs.read_messages_from_queue` is not
under src; per the spec it pulls up to the given batch size of messages from
the front of the work queue. Returns the pulled batch and the remaining
queue. -/
def read_messages_from_queue (queue : List QueueMessage) (max_count : Nat) :
    List QueueMessage × List QueueMessage :=
  (queue.take max_count, queue.drop max_count)

/-- Modelled from the spec: `util.aws.sqs.add_messages_to_queue` is not under
src; per the spec it re-delivers the given messages to the queue. -/
def add_messages_to_queue (queue : List QueueMessage)
    (messages : List QueueMessage) : List QueueMessage :=
  queue ++ messages

/-- The externally observable outcome of one `scale_up_inspection_cluster`
run: whether `aws.scale_up` was called, the batch handed to
`run_inspection_cluster.delay` (if any), whether the exception was re-raised,
and the final queue contents. -/
structure ScaleUpOutcome where
  scale_up_requested : Bool
  dispatched_batch : Option (List QueueMessage)
  raised : Bool
  queue : List QueueMessage
deriving DecidableEq, Repr

/-- `scale_up_inspection_cluster` (tasks.py lines 566-618). The outcome of
the one external `aws.scale_up` call is passed in as `scale_up_succeeds`
(`False` models `aws.scale_up` raising `ClientError`). -/
def scale_up_inspection_cluster (asg : AutoScalingGroup)
    (queue : List QueueMessage) (batch_size : Nat)
    (scale_up_succeeds : Bool) : ScaleUpOutcome :=
  if !(is_scaled_down asg) then
    -- Quietly exit and let a future run check the scaling.
    { scale_up_requested := false, dispatched_batch := none, raised := false,
      queue := queue }
  else
    let (messages, remaining) := read_messages_from_queue queue batch_size
    if messages.length == 0 then
      -- Quietly exit and let a future run check for messages.
      { scale_up_requested := false, dispatched_batch := none, raised := false,
        queue := remaining }
    else if scale_up_succeeds then
      { scale_up_requested := true, dispatched_batch := some messages,
        raised := false, queue := remaining }
    else
      -- If scale_up fails unexpectedly, requeue messages so they are not
      -- lost, and re-raise.
      { scale_up_requested := true, dispatched_batch := none, raised := true,
        queue := add_messages_to_queue remaining messages }

theorem scale_up_eval_not_scaled_down (asg : AutoScalingGroup)
    (queue : List QueueMessage) (batch_size : Nat) (ok : Bool)
    (h : is_scaled_down asg = false) :
    scale_up_inspection_cluster asg queue batch_size ok
      = { scale_up_requested := false, dispatched_batch := none,
          raised := false, queue := queue } := by
  simp [scale_up_inspection_cluster, h]

theorem scale_up_eval_no_messages (asg : AutoScalingGroup)
    (queue : List QueueMessage) (batch_size : Nat) (ok : Bool)
    (hz : is_scaled_down asg = true) (hm : queue.take batch_size = []) :
    scale_up_inspection_cluster asg queue batch_size ok
      = { scale_up_requested := false, dispatched_batch := none,
          raised := false, queue := queue.drop batch_size } := by
  simp [scale_up_inspection_cluster, read_messages_from_queue, hz, hm]

theorem scale_up_eval_ok (asg : AutoScalingGroup)
    (queue : List QueueMessage) (batch_size : Nat)
    (hz : is_scaled_down asg = true) (hm : queue.take batch_size ≠ []) :
    scale_up_inspection_cluster asg queue batch_size true
      = { scale_up_requested := true,
          dispatched_batch := some (queue.take batch_size),
          raised := false, queue := queue.drop batch_size } := by
  have hm' : ¬(batch_size = 0 ∨ queue = []) := by
    rw [← List.take_eq_nil_iff]
    exact hm
  simp [scale_up_inspection_cluster, read_messages_from_queue, hz, hm, hm']

theorem scale_up_eval_fail (asg : AutoScalingGroup)
    (queue : List QueueMessage) (batch_size : Nat)
    (hz : is_scaled_down asg = true) (hm : queue.take batch_size ≠ []) :
    scale_up_inspection_cluster asg queue batch_size false
      = { scale_up_requested := true, dispatched_batch := none,
          raised := true,
          queue := queue.drop batch_size ++ queue.take batch_size } := by
  have hm' : ¬(batch_size = 0 ∨ queue = []) := by
    rw [← List.take_eq_nil_iff]
    exact hm
  simp [scale_up_inspection_cluster, read_messages_from_queue,
    add_messages_to_queue, hz, hm, hm']

theorem is_scaled_down_spec (asg : AutoScalingGroup)
    (h : is_scaled_down asg = true) :
    asg.instances.length = 0 ∧ asg.min_size = 0 ∧ asg.max_size = 0 ∧
      asg.desired_capacity = 0 := by
  unfold is_scaled_down at h
  simp only [Bool.and_eq_true, beq_iff_eq] at h
  exact ⟨h.1.1.1, h.1.1.2, h.1.2, h.2⟩

/-- Claim C2: on every invocation of `scale_up_inspection_cluster`, a
scale-up request is issued only when the elastic compute group is fully at
zero (instance count 0 and min size, max size, desired capacity all 0) and at
least one ready-volume message was read from the queue; and the dispatcher is
never handed an empty batch. -/
theorem scale_up_only_when_fully_at_zero (asg : AutoScalingGroup)
    (queue : List QueueMessage) (batch_size : Nat) (scale_up_succeeds : Bool) :
    ((scale_up_inspection_cluster asg queue batch_size
        scale_up_succeeds).scale_up_requested = true →
      (asg.instances.length = 0 ∧ asg.min_size = 0 ∧ asg.max_size = 0 ∧
        asg.desired_capacity = 0) ∧ queue.take batch_size ≠ []) ∧
    (∀ batch, (scale_up_inspection_cluster asg queue batch_size
        scale_up_succeeds).dispatched_batch = some batch → batch ≠ []) := by
  by_cases hz : is_scaled_down asg = true
  · by_cases hm : queue.take batch_size = []
    · rw [scale_up_eval_no_messages asg queue batch_size scale_up_succeeds hz
        hm]
      exact ⟨fun h => absurd h Bool.false_ne_true,
        fun batch hb => Option.noConfusion hb⟩
    · cases scale_up_succeeds with
      | true =>
        rw [scale_up_eval_ok asg queue batch_size hz hm]
        refine ⟨fun _ => ⟨is_scaled_down_spec asg hz, hm⟩, fun batch hb => ?_⟩
        cases hb
        exact hm
      | false =>
        rw [scale_up_eval_fail asg queue batch_size hz hm]
        exact ⟨fun _ => ⟨is_scaled_down_spec asg hz, hm⟩,
          fun batch hb => Option.noConfusion hb⟩
  · rw [scale_up_eval_not_scaled_down asg queue batch_size scale_up_succeeds
      (Bool.not_eq_true _ ▸ Bool.of_not_eq_true hz)]
    exact ⟨fun h => absurd h Bool.false_ne_true,
      fun batch hb => Option.noConfusion hb⟩

/-- Witness for C2 at a concrete input: a fully-scaled-down group and a
one-message queue. -/
theorem scale_up_only_when_fully_at_zero_witness :
    (((AutoScalingGroup.mk 0 0 0 []).instances.length = 0 ∧
      (AutoScalingGroup.mk 0 0 0 []).min_size = 0 ∧
      (AutoScalingGroup.mk 0 0 0 []).max_size = 0 ∧
      (AutoScalingGroup.mk 0 0 0 []).desired_capacity = 0) ∧
      ([QueueMessage.mk "ami-01" "vol-01"].take 8 ≠ [])) ∧
    [QueueMessage.mk "ami-01" "vol-01"] ≠ [] := by
  refine ⟨?_, ?_⟩
  · exact (scale_up_only_when_fully_at_zero (AutoScalingGroup.mk 0 0 0 [])
      [QueueMessage.mk "ami-01" "vol-01"] 8 true).1 (by decide)
  · exact (scale_up_only_when_fully_at_zero (AutoScalingGroup.mk 0 0 0 [])
      [QueueMessage.mk "ami-01" "vol-01"] 8 true).2
      [QueueMessage.mk "ami-01" "vol-01"] (by decide)

/-- Claim C3: if the scale-up request fails after a non-empty batch was
pulled, every pulled message is back in the queue (and the final queue is a
permutation of the original, so nothing is dropped or duplicated), the
failure is re-raised, and no batch is dispatched; a batch is handed to the
dispatcher only when the scale-up call succeeds. -/
theorem scale_up_failure_requeues_messages (asg : AutoScalingGroup)
    (queue : List QueueMessage) (batch_size : Nat)
    (hz : is_scaled_down asg = true)
    (hne : queue.take batch_size ≠ []) :
    (scale_up_inspection_cluster asg queue batch_size false).raised = true ∧
    (scale_up_inspection_cluster asg queue batch_size false).dispatched_batch
      = none ∧
    (∀ m ∈ queue.take batch_size,
      m ∈ (scale_up_inspection_cluster asg queue batch_size false).queue) ∧
    ((scale_up_inspection_cluster asg queue batch_size false).queue).Perm
      queue ∧
    (∀ ok batch, (scale_up_inspection_cluster asg queue batch_size
        ok).dispatched_batch = some batch → ok = true) := by
  rw [scale_up_eval_fail asg queue batch_size hz hne]
  refine ⟨rfl, rfl, ?_, ?_, ?_⟩
  · intro m hmem
    exact List.mem_append_right _ hmem
  · exact List.Perm.trans List.perm_append_comm
      (by rw [List.take_append_drop])
  · intro ok batch hb
    cases ok with
    | true => rfl
    | false =>
      rw [scale_up_eval_fail asg queue batch_size hz hne] at hb
      cases hb

/-- Witness for C3 at a concrete input: scaled-down group, one pulled
message, failing scale-up. -/
theorem scale_up_failure_requeues_messages_witness :
    (scale_up_inspection_cluster (AutoScalingGroup.mk 0 0 0 [])
      [QueueMessage.mk "ami-01" "vol-01"] 8 false).raised = true ∧
    (scale_up_inspection_cluster (AutoScalingGroup.mk 0 0 0 [])
      [QueueMessage.mk "ami-01" "vol-01"] 8 false).dispatched_batch = none ∧
    (∀ m ∈ ([QueueMessage.mk "ami-01" "vol-01"] : List QueueMessage).take 8,
      m ∈ (scale_up_inspection_cluster (AutoScalingGroup.mk 0 0 0 [])
        [QueueMessage.mk "ami-01" "vol-01"] 8 false).queue) ∧
    ((scale_up_inspection_cluster (AutoScalingGroup.mk 0 0 0 [])
      [QueueMessage.mk "ami-01" "vol-01"] 8 false).queue).Perm
      [QueueMessage.mk "ami-01" "vol-01"] ∧
    (∀ ok batch, (scale_up_inspection_cluster (AutoScalingGroup.mk 0 0 0 [])
        [QueueMessage.mk "ami-01" "vol-01"] 8 ok).dispatched_batch
          = some batch → ok = true) :=
  scale_up_failure_requeues_messages (AutoScalingGroup.mk 0 0 0 [])
    [QueueMessage.mk "ami-01" "vol-01"] 8 (by decide) (by decide)

/-! ## Volume provisioner follow-up: delete_snapshot (tasks.py lines 503-528) -/

/-- Errors a `delete_snapshot` run can surface: `aws.check_volume_state`
raising because the volume is not ready, or the provider's
InvalidSnapshot.NotFound raised by `snapshot_copy.delete` when the snapshot
no longer exists. -/
inductive DeleteSnapshotError
  | volume_not_available
  | snapshot_not_found
deriving DecidableEq, Repr

/-- `delete_snapshot` (tasks.py lines 503-528): wait for the volume to be
ready, then delete the snapshot copy. The provider world is passed in as the
list of existing snapshot ids and the volume's readiness
(`aws.check_volume_state`, from util.aws outside src, raises when the volume
is not ready). The body has no try/except: a provider error from
`snapshot_copy.delete(DryRun=False)` on a missing snapshot propagates. -/
def delete_snapshot (snapshots : List String) (snapshot_copy_id : String)
    (volume_available : Bool) : Except DeleteSnapshotError (List String) :=
  if !volume_available then .error .volume_not_available
  else if snapshots.contains snapshot_copy_id then
    .ok (snapshots.erase snapshot_copy_id)
  else .error .snapshot_not_found

/-- Counterexample to C4 as stated: with the volume ready and the snapshot
copy already deleted, `delete_snapshot` does not complete quietly; the
provider not-found error propagates (there is no try/except in the task). -/
theorem delete_snapshot_not_found_raises :
    delete_snapshot [] "snap-copy-01" true
      = .error DeleteSnapshotError.snapshot_not_found ∧
    (delete_snapshot [] "snap-copy-01" true).toOption = none :=
  ⟨rfl, rfl⟩

/-- Claim C4 amended: `delete_snapshot` waits for the volume created from the
snapshot copy to be ready and then deletes the snapshot copy, but it does not
tolerate a provider not-found error for the snapshot copy: when the copy no
longer exists the error propagates and the task fails (the not-found
tolerance lives in `remove_snapshot_ownership`, not here). -/
theorem delete_snapshot_spec (snapshots : List String)
    (snapshot_copy_id : String) :
    (snapshot_copy_id ∈ snapshots →
      delete_snapshot snapshots snapshot_copy_id true
        = .ok (snapshots.erase snapshot_copy_id)) ∧
    (snapshot_copy_id ∉ snapshots →
      delete_snapshot snapshots snapshot_copy_id true
        = .error .snapshot_not_found) ∧
    delete_snapshot snapshots snapshot_copy_id false
      = .error .volume_not_available := by
  refine ⟨?_, ?_, rfl⟩
  · intro hmem
    have hc : snapshots.contains snapshot_copy_id = true :=
      List.elem_eq_true_of_mem hmem
    simp [delete_snapshot, hc, hmem]
  · intro hmem
    have hc : snapshots.contains snapshot_copy_id = false := by
      rw [Bool.eq_false_iff]
      intro h
      exact hmem (List.mem_of_elem_eq_true h)
    simp [delete_snapshot, hc, hmem]

/-- Witness for the amended C4 at concrete inputs: an existing snapshot copy
is deleted, a missing one surfaces the provider error. -/
theorem delete_snapshot_spec_witness :
    delete_snapshot ["snap-copy-01"] "snap-copy-01" true = .ok [] ∧
    delete_snapshot ["snap-copy-02"] "snap-copy-01" true
      = .error .snapshot_not_found := by
  refine ⟨?_, ?_⟩
  · have h := (delete_snapshot_spec ["snap-copy-01"] "snap-copy-01").1
      (by decide)
    simpa using h
  · exact (delete_snapshot_spec ["snap-copy-02"] "snap-copy-01").2.1
      (by decide)

/-! ## Image stager: copy_ami_to_customer_account (tasks.py lines 338-427) -/

/-- The AWS image metadata `aws.get_ami` returns that this task reads. -/
structure AwsAmi where
  id : String
  is_public : Bool
deriving DecidableEq, Repr

/-- What the task writes to the image record on its terminal paths. -/
inductive ImageStatusUpdate
  | no_update
  | marked_error
  | marked_inspected_marketplace
deriving DecidableEq, Repr

/-- The externally observable outcome of one `copy_ami_to_customer_account`
run: the status update performed, whether the provider error was re-raised,
and whether `copy_ami_snapshot.delay` was scheduled to continue the staging
chain. -/
structure CopyAmiOutcome where
  update : ImageStatusUpdate
  raised : Bool
  scheduled_copy_ami_snapshot : Bool
deriving DecidableEq, Repr

/-- The `public_errors` tuple of `copy_ami_to_customer_account` (tasks.py
lines 385-390). -/
def public_errors : List String :=
  ["Images from AWS Marketplace cannot be copied to another AWS account",
   "Images with EC2 BillingProduct codes cannot be copied to another AWS account",
   "You do not have permission to access the storage of this ami"]

/-- The `private_errors` string of `copy_ami_to_customer_account` (tasks.py
line 391). -/
def private_errors : String :=
  "You do not have permission to access the storage of this ami"

/-- The error text the task compares: the provider message with one trailing
period stripped (tasks.py lines 393-397). -/
def copy_ami_error_text (e : ClientError) : String :=
  if str_endswith_period e.message then str_drop_last e.message else e.message

/-- `copy_ami_to_customer_account` (tasks.py lines 338-427). Inputs model the
observable results of the external calls: whether the `AwsMachineImage`
record exists, what `aws.get_ami` returned for the reference image, and how
`aws.copy_ami` ended (new AMI id, or `ClientError`). -/
def copy_ami_to_customer_account (image_in_db : Bool)
    (reference_ami : Option AwsAmi)
    (copy_ami_result : Except ClientError String) : CopyAmiOutcome :=
  if !image_in_db then
    { update := .no_update, raised := false,
      scheduled_copy_ami_snapshot := false }
  else
    match reference_ami with
    | none =>
      -- Cannot copy reference AMI. Saving ERROR status.
      { update := .marked_error, raised := false,
        scheduled_copy_ami_snapshot := false }
    | some reference_ami =>
      match copy_ami_result with
      | .ok _new_ami_id =>
        { update := .no_update, raised := false,
          scheduled_copy_ami_snapshot := true }
      | .error e =>
        if e.code == "InvalidRequest" then
          let error := copy_ami_error_text e
          if !reference_ami.is_public
              && contains_substring private_errors.data error.data then
            -- A private AMI with inaccessible storage. Saving ERROR status.
            { update := .marked_error, raised := false,
              scheduled_copy_ami_snapshot := false }
          else if public_errors.contains error then
            -- A marketplace/community AMI, mark it as inspected.
            { update := .marked_inspected_marketplace, raised := false,
              scheduled_copy_ami_snapshot := false }
          else
            { update := .no_update, raised := true,
              scheduled_copy_ami_snapshot := false }
        else
          { update := .no_update, raised := true,
            scheduled_copy_ami_snapshot := false }

/-- Counterexample to C5 as stated: the inaccessible-storage phrase is one of
the known `public_errors` phrases, yet for a non-public reference image the
task marks the image ERROR, not INSPECTED-with-marketplace-flag. -/
theorem copy_ami_storage_phrase_marks_error :
    public_errors.contains (copy_ami_error_text
      (ClientError.mk "InvalidRequest"
        "You do not have permission to access the storage of this ami."))
      = true ∧
    copy_ami_to_customer_account true (some (AwsAmi.mk "ami-ref" false))
      (.error (ClientError.mk "InvalidRequest"
        "You do not have permission to access the storage of this ami."))
      = { update := .marked_error, raised := false,
          scheduled_copy_ami_snapshot := false } :=
  ⟨rfl, rfl⟩

/-- Claim C5 amended: when copying the image fails with an InvalidRequest
provider error whose message (with any trailing period stripped) matches one
of the known phrases, and it is not the private-image inaccessible-storage
case (a non-public image whose stripped message is contained in the
inaccessible-storage phrase, which is marked ERROR instead), the task marks
the image INSPECTED with the marketplace flag and returns without raising,
and the staging chain stops: `copy_ami_snapshot` is never scheduled, so no
snapshot copy or volume is ever created for the image. -/
theorem copy_ami_marketplace_marks_inspected (ami : AwsAmi) (e : ClientError)
    (hcode : e.code = "InvalidRequest")
    (hmatch : public_errors.contains (copy_ami_error_text e) = true)
    (hpriv : ¬(ami.is_public = false ∧
      contains_substring private_errors.data (copy_ami_error_text e).data
        = true)) :
    copy_ami_to_customer_account true (some ami) (.error e)
      = { update := .marked_inspected_marketplace, raised := false,
          scheduled_copy_ami_snapshot := false } := by
  have hb : (!ami.is_public
      && contains_substring private_errors.data (copy_ami_error_text e).data)
      = false := by
    cases hp : ami.is_public with
    | true => simp
    | false =>
      cases hcs : contains_substring private_errors.data
          (copy_ami_error_text e).data with
      | true => exact absurd ⟨hp, hcs⟩ hpriv
      | false => simp
  have hmem : copy_ami_error_text e ∈ public_errors :=
    List.mem_of_elem_eq_true hmatch
  simp only [copy_ami_to_customer_account, Bool.not_true, hcode]
  simp [hb, hmatch, hmem]

/-- Witness for the amended C5 at a concrete input: a public marketplace
image whose copy fails with the marketplace phrase plus trailing period. -/
theorem copy_ami_marketplace_marks_inspected_witness :
    copy_ami_to_customer_account true (some (AwsAmi.mk "ami-ref" true))
      (.error (ClientError.mk "InvalidRequest"
        "Images from AWS Marketplace cannot be copied to another AWS account."))
      = { update := .marked_inspected_marketplace, raised := false,
          scheduled_copy_ami_snapshot := false } :=
  copy_ami_marketplace_marks_inspected (AwsAmi.mk "ami-ref" true)
    (ClientError.mk "InvalidRequest"
      "Images from AWS Marketplace cannot be copied to another AWS account.")
    rfl (by decide) (by decide)

/-! ## Inspection dispatcher, phase 1: run_inspection_cluster message filter
(tasks.py lines 636-666) -/

/-- The first loop of `run_inspection_cluster` (tasks.py lines 636-660): for
each message, look up the image by EC2 AMI id; if found, set its status to
INSPECTING and keep the message as relevant; if either the `AwsMachineImage`
or the `MachineImage` record is missing, log and skip the message. Returns
the updated database and the relevant messages, in order. -/
def run_inspection_cluster_filter (db : List MachineImageRec) :
    List QueueMessage → List MachineImageRec × List QueueMessage
  | [] => (db, [])
  | message :: rest =>
    match find_image db message.ami_id with
    | some _ =>
      let db2 := set_image_status db message.ami_id .INSPECTING
      let res := run_inspection_cluster_filter db2 rest
      (res.1, message :: res.2)
    | none => run_inspection_cluster_filter db rest

theorem find_set_image_status (db : List MachineImageRec)
    (ec2_ami_id : String) (st : ImageStatus) :
    find_image (set_image_status db ec2_ami_id st) ec2_ami_id
      = (find_image db ec2_ami_id).map (fun r => { r with status := st }) := by
  induction db with
  | nil => rfl
  | cons r rest ih =>
    by_cases h : r.ec2_ami_id == ec2_ami_id
    · simp [set_image_status, find_image, List.find?, h]
    · simp only [set_image_status, h, if_false, Bool.false_eq_true]
      simp only [find_image, List.find?, h] at ih ⊢
      exact ih

theorem find_set_image_status_other (db : List MachineImageRec)
    (ec2_ami_id other : String) (st : ImageStatus)
    (hne : other ≠ ec2_ami_id) :
    find_image (set_image_status db ec2_ami_id st) other
      = find_image db other := by
  induction db with
  | nil => rfl
  | cons r rest ih =>
    by_cases h : r.ec2_ami_id == ec2_ami_id
    · have h2 : (r.ec2_ami_id == other) = false := by
        rw [beq_eq_false_iff_ne]
        intro hro
        exact hne (hro ▸ (beq_iff_eq.mp h))
      simp [set_image_status, find_image, List.find?, h, h2]
    · simp only [set_image_status, h, if_false, Bool.false_eq_true]
      by_cases h3 : r.ec2_ami_id == other
      · simp [find_image, List.find?, h3]
      · simp only [find_image, List.find?, h3] at ih ⊢
        exact ih

theorem image_exists_set_image_status (db : List MachineImageRec)
    (ec2_ami_id other : String) (st : ImageStatus) :
    image_exists (set_image_status db ec2_ami_id st) other
      = image_exists db other := by
  by_cases h : other = ec2_ami_id
  · subst h
    simp [image_exists, find_set_image_status]
  · simp [image_exists, find_set_image_status_other db ec2_ami_id other st h]

theorem image_status_set_image_status_self (db : List MachineImageRec)
    (ec2_ami_id : String) (st : ImageStatus)
    (h : image_exists db ec2_ami_id = true) :
    image_status (set_image_status db ec2_ami_id st) ec2_ami_id = some st := by
  unfold image_exists at h
  rw [Option.isSome_iff_exists] at h
  obtain ⟨r, hr⟩ := h
  simp [image_status, find_set_image_status, hr]

/-- Once an image has status INSPECTING, the filter loop keeps it INSPECTING:
every status write that loop performs writes INSPECTING. -/
theorem run_inspection_cluster_filter_preserves_inspecting
    (messages : List QueueMessage) (db : List MachineImageRec)
    (ec2_ami_id : String)
    (h : image_status db ec2_ami_id = some .INSPECTING) :
    image_status (run_inspection_cluster_filter db messages).1 ec2_ami_id
      = some .INSPECTING := by
  induction messages generalizing db with
  | nil => exact h
  | cons message rest ih =>
    unfold run_inspection_cluster_filter
    cases hf : find_image db message.ami_id with
    | none => exact ih db h
    | some r =>
      apply ih
      by_cases he : ec2_ami_id = message.ami_id
      · subst he
        apply image_status_set_image_status_self
        unfold image_exists
        rw [hf]
        rfl
      · rw [image_status,
          find_set_image_status_other db message.ami_id ec2_ami_id _ he]
        exact h

/-- Counterexample to C1 as stated: an image whose status is already
INSPECTED (past inspection) is nonetheless moved back to INSPECTING when a
work-queue message for it is processed; the filter checks only existence,
never the current status. -/
theorem run_inspection_cluster_regresses_inspected :
    image_status [MachineImageRec.mk "ami-01" .INSPECTED none false] "ami-01"
      = some .INSPECTED ∧
    (run_inspection_cluster_filter
        [MachineImageRec.mk "ami-01" .INSPECTED none false]
        [QueueMessage.mk "ami-01" "vol-01"]).1
      = [MachineImageRec.mk "ami-01" .INSPECTING none false] ∧
    image_status (run_inspection_cluster_filter
        [MachineImageRec.mk "ami-01" .INSPECTED none false]
        [QueueMessage.mk "ami-01" "vol-01"]).1 "ami-01"
      = some .INSPECTING :=
  ⟨rfl, rfl, rfl⟩

/-- Claim C1 amended: `run_inspection_cluster` filters the batch only by
whether the image still exists; every image matched by a message is marked
INSPECTING regardless of its current status, so a status already INSPECTED is
moved back to INSPECTING (the no-regression invariant does not hold through
this task). Messages whose image is missing are skipped and the database is
otherwise untouched. -/
theorem run_inspection_cluster_marks_existing_inspecting
    (db : List MachineImageRec) (messages : List QueueMessage) :
    (∀ m ∈ messages, image_exists db m.ami_id = true →
      image_status (run_inspection_cluster_filter db messages).1 m.ami_id
        = some .INSPECTING) ∧
    (∀ ec2_ami_id, (∀ m ∈ messages, m.ami_id ≠ ec2_ami_id) →
      find_image (run_inspection_cluster_filter db messages).1 ec2_ami_id
        = find_image db ec2_ami_id) := by
  induction messages generalizing db with
  | nil =>
    exact ⟨fun m hm => absurd hm (List.not_mem_nil m), fun _ _ => rfl⟩
  | cons message rest ih =>
    constructor
    · intro m hm hex
      unfold run_inspection_cluster_filter
      rcases List.mem_cons.mp hm with hm1 | hm2
      · subst hm1
        cases hf : find_image db m.ami_id with
        | none =>
          rw [image_exists, hf] at hex
          exact absurd hex (by simp)
        | some r =>
          apply run_inspection_cluster_filter_preserves_inspecting
          apply image_status_set_image_status_self
          exact hex
      · cases hf : find_image db message.ami_id with
        | none => exact (ih db).1 m hm2 hex
        | some r =>
          apply (ih (set_image_status db message.ami_id .INSPECTING)).1 m hm2
          rw [image_exists_set_image_status]
          exact hex
    · intro ec2_ami_id hne
      unfold run_inspection_cluster_filter
      cases hf : find_image db message.ami_id with
      | none =>
        exact (ih db).2 ec2_ami_id (fun m hm => hne m (List.mem_cons_of_mem _ hm))
      | some r =>
        rw [(ih (set_image_status db message.ami_id .INSPECTING)).2 ec2_ami_id
          (fun m hm => hne m (List.mem_cons_of_mem _ hm))]
        exact find_set_image_status_other db message.ami_id ec2_ami_id _
          (fun h => hne message (List.mem_cons_self _ _) h.symm) |>.symm ▸ rfl

/-- Witness for the amended C1 at a concrete input: a PENDING image and an
INSPECTED image both end INSPECTING, an unmatched image is untouched. -/
theorem run_inspection_cluster_marks_existing_inspecting_witness :
    image_status (run_inspection_cluster_filter
        [MachineImageRec.mk "ami-01" .INSPECTED none false,
         MachineImageRec.mk "ami-02" .PENDING none false]
        [QueueMessage.mk "ami-01" "vol-01"]).1 "ami-01"
      = some .INSPECTING ∧
    find_image (run_inspection_cluster_filter
        [MachineImageRec.mk "ami-01" .INSPECTED none false,
         MachineImageRec.mk "ami-02" .PENDING none false]
        [QueueMessage.mk "ami-01" "vol-01"]).1 "ami-02"
      = find_image
        [MachineImageRec.mk "ami-01" .INSPECTED none false,
         MachineImageRec.mk "ami-02" .PENDING none false] "ami-02" := by
  constructor
  · exact (run_inspection_cluster_marks_existing_inspecting
      [MachineImageRec.mk "ami-01" .INSPECTED none false,
       MachineImageRec.mk "ami-02" .PENDING none false]
      [QueueMessage.mk "ami-01" "vol-01"]).1
      (QueueMessage.mk "ami-01" "vol-01") (by decide) (by decide)
  · exact (run_inspection_cluster_marks_existing_inspecting
      [MachineImageRec.mk "ami-01" .INSPECTED none false,
       MachineImageRec.mk "ami-02" .PENDING none false]
      [QueueMessage.mk "ami-01" "vol-01"]).2 "ami-02" (by decide)

/-! ## Inspection dispatcher, phase 2: volume attachment
(tasks.py lines 707-791) -/

/-- Modelled from the spec: `util.misc.generate_device_name` is not under
src; per the spec it deterministically derives a device path from the
enumerate index. -/
def generate_device_name (index : Nat) : String :=
  String.append "/dev/xvd" (Nat.toDigits 10 index).asString

/-- The externally visible actions the attach loop performs, in order. -/
inductive InspectAction
  | marked_inspected (ec2_ami_id : String)
  | marked_error (ec2_ami_id : String)
  | deleted_volume (volume_id : String)
  | configured_auto_delete (volume_id : String) (device : String)
  | added_target (ec2_ami_id : String) (device : String)
deriving DecidableEq, Repr

/-- The attach-failure classification of `run_inspection_cluster` (tasks.py
lines 733-736): error code OptInRequired or IncorrectInstanceState with
"marketplace" in the lowered error message. -/
def marketplace_attach_error (e : ClientError) : Bool :=
  (e.code == "OptInRequired" || e.code == "IncorrectInstanceState")
    && contains_substring (py_lower e.message.data) "marketplace".data

/-- The attach loop of `run_inspection_cluster` (tasks.py lines 709-787),
keyed by the enumerate index. Each relevant message is paired with the
outcome of its `volume.attach_to_instance` call (`none` for success, `some e`
for a `ClientError`). On failure the image is marked INSPECTED (marketplace
signature) or ERROR (anything else), the volume is deleted, and the loop
continues; on success the volume is configured to auto-delete and appended to
the task command as a target. -/
def attach_volumes (index : Nat) :
    List (QueueMessage × Option ClientError) → List InspectAction
  | [] => []
  | (message, some e) :: rest =>
    (if marketplace_attach_error e then
      InspectAction.marked_inspected message.ami_id
     else
      InspectAction.marked_error message.ami_id)
      :: InspectAction.deleted_volume message.volume_id
      :: attach_volumes (index + 1) rest
  | (message, none) :: rest =>
    InspectAction.configured_auto_delete message.volume_id
        (generate_device_name index)
      :: InspectAction.added_target message.ami_id (generate_device_name index)
      :: attach_volumes (index + 1) rest

/-- Every successfully attached message contributes a scan target, wherever
it sits in the batch. -/
theorem attach_success_adds_target (index : Nat)
    (messages : List (QueueMessage × Option ClientError))
    (m2 : QueueMessage) (hmem : (m2, (none : Option ClientError)) ∈ messages) :
    ∃ device, InspectAction.added_target m2.ami_id device
      ∈ attach_volumes index messages := by
  induction messages generalizing index with
  | nil => exact absurd hmem (List.not_mem_nil _)
  | cons p rest ih =>
    obtain ⟨pm, pe⟩ := p
    rcases List.mem_cons.mp hmem with hx | hx
    · injection hx with hxm hxe
      subst hxm
      cases hxe
      exact ⟨generate_device_name index, by simp [attach_volumes]⟩
    · obtain ⟨device, hd⟩ := ih (index + 1) hx
      cases pe with
      | some pe2 => exact ⟨device, by simp [attach_volumes, hd]⟩
      | none => exact ⟨device, by simp [attach_volumes, hd]⟩

/-- Claim C6: for every volume whose attach fails, the image is marked
INSPECTED when the error code is OptInRequired or IncorrectInstanceState and
the message mentions marketplace, and marked ERROR for any other attach
error; in both cases the volume is deleted; and processing continues with the
remaining messages: every successfully attached message still contributes its
scan target. -/
theorem attach_failure_handling (index : Nat)
    (messages : List (QueueMessage × Option ClientError))
    (m : QueueMessage) (e : ClientError)
    (hmem : (m, some e) ∈ messages) :
    ((marketplace_attach_error e = true →
        InspectAction.marked_inspected m.ami_id
          ∈ attach_volumes index messages) ∧
     (marketplace_attach_error e = false →
        InspectAction.marked_error m.ami_id
          ∈ attach_volumes index messages)) ∧
    InspectAction.deleted_volume m.volume_id ∈ attach_volumes index messages ∧
    (∀ m2 : QueueMessage, (m2, (none : Option ClientError)) ∈ messages →
      ∃ device, InspectAction.added_target m2.ami_id device
        ∈ attach_volumes index messages) := by
  refine ⟨?_, ?_, fun m2 hm2 => attach_success_adds_target index messages m2 hm2⟩
  · constructor
    · intro hmkt
      induction messages generalizing index with
      | nil => exact absurd hmem (List.not_mem_nil _)
      | cons p rest ih =>
        obtain ⟨pm, pe⟩ := p
        rcases List.mem_cons.mp hmem with hx | hx
        · injection hx with hxm hxe
          subst hxm
          cases hxe.symm
          simp [attach_volumes, hmkt]
        · have hrest := ih (index + 1) hx
          cases pe with
          | some pe2 =>
            cases hmk : marketplace_attach_error pe2 <;>
              simp [attach_volumes, hmk, hrest]
          | none => simp [attach_volumes, hrest]
    · intro hmkt
      induction messages generalizing index with
      | nil => exact absurd hmem (List.not_mem_nil _)
      | cons p rest ih =>
        obtain ⟨pm, pe⟩ := p
        rcases List.mem_cons.mp hmem with hx | hx
        · injection hx with hxm hxe
          subst hxm
          cases hxe.symm
          simp [attach_volumes, hmkt]
        · have hrest := ih (index + 1) hx
          cases pe with
          | some pe2 =>
            cases hmk : marketplace_attach_error pe2 <;>
              simp [attach_volumes, hmk, hrest]
          | none => simp [attach_volumes, hrest]
  · induction messages generalizing index with
    | nil => exact absurd hmem (List.not_mem_nil _)
    | cons p rest ih =>
      obtain ⟨pm, pe⟩ := p
      rcases List.mem_cons.mp hmem with hx | hx
      · injection hx with hxm hxe
        subst hxm
        cases hxe.symm
        cases hmk : marketplace_attach_error e <;>
          simp [attach_volumes, hmk]
      · have hrest := ih (index + 1) hx
        cases pe with
        | some pe2 =>
          cases hmk : marketplace_attach_error pe2 <;>
            simp [attach_volumes, hmk, hrest]
        | none => simp [attach_volumes, hrest]

/-- Witness for C6 at a concrete input: one marketplace-signature failure,
one other failure, one success. -/
theorem attach_failure_handling_witness :
    (InspectAction.marked_inspected "ami-01" ∈ attach_volumes 0
      [(QueueMessage.mk "ami-01" "vol-01",
        some (ClientError.mk "OptInRequired"
          "This is a Marketplace image subscription required")),
       (QueueMessage.mk "ami-02" "vol-02",
        some (ClientError.mk "VolumeInUse" "already attached")),
       (QueueMessage.mk "ami-03" "vol-03", none)]) ∧
    (InspectAction.marked_error "ami-02" ∈ attach_volumes 0
      [(QueueMessage.mk "ami-01" "vol-01",
        some (ClientError.mk "OptInRequired"
          "This is a Marketplace image subscription required")),
       (QueueMessage.mk "ami-02" "vol-02",
        some (ClientError.mk "VolumeInUse" "already attached")),
       (QueueMessage.mk "ami-03" "vol-03", none)]) ∧
    (InspectAction.deleted_volume "vol-01" ∈ attach_volumes 0
      [(QueueMessage.mk "ami-01" "vol-01",
        some (ClientError.mk "OptInRequired"
          "This is a Marketplace image subscription required")),
       (QueueMessage.mk "ami-02" "vol-02",
        some (ClientError.mk "VolumeInUse" "already attached")),
       (QueueMessage.mk "ami-03" "vol-03", none)]) ∧
    (∃ device, InspectAction.added_target "ami-03" device ∈ attach_volumes 0
      [(QueueMessage.mk "ami-01" "vol-01",
        some (ClientError.mk "OptInRequired"
          "This is a Marketplace image subscription required")),
       (QueueMessage.mk "ami-02" "vol-02",
        some (ClientError.mk "VolumeInUse" "already attached")),
       (QueueMessage.mk "ami-03" "vol-03", none)]) := by
  refine ⟨?_, ?_, ?_, ?_⟩
  · exact (attach_failure_handling 0 _ (QueueMessage.mk "ami-01" "vol-01")
      (ClientError.mk "OptInRequired"
        "This is a Marketplace image subscription required")
      (by decide)).1.1 (by decide)
  · exact (attach_failure_handling 0 _ (QueueMessage.mk "ami-02" "vol-02")
      (ClientError.mk "VolumeInUse" "already attached")
      (by decide)).1.2 (by decide)
  · exact (attach_failure_handling 0 _ (QueueMessage.mk "ami-01" "vol-01")
      (ClientError.mk "OptInRequired"
        "This is a Marketplace image subscription required")
      (by decide)).2.1
  · exact (attach_failure_handling 0 _ (QueueMessage.mk "ami-01" "vol-01")
      (ClientError.mk "OptInRequired"
        "This is a Marketplace image subscription required")
      (by decide)).2.2 (QueueMessage.mk "ami-03" "vol-03") (by decide)

/-! ## Result collector: persist_aws_inspection_cluster_results
(tasks.py lines 869-897) -/

/-- The error `persist_aws_inspection_cluster_results` raises on malformed
input. -/
inductive HoundigradeResultsError
  | invalid_houndigrade_json_format
deriving DecidableEq, Repr

/-- The houndigrade results payload: an optional "images" mapping from image
id to opaque per-image details (`inspection_results.get("images")` is `none`
exactly when the key is missing). -/
structure InspectionResults where
  images : Option (List (String × String))
deriving DecidableEq, Repr

/-- Modelled from the spec: `json.dumps` of the opaque per-image details; the
details are already treated as opaque serialized text. -/
def json_dumps (details : String) : String := details

/-- Modelled from the spec: `api.clouds.aws.util.update_aws_image_status_inspected`
is not under src; per the spec it updates the matching image to INSPECTED,
attaching the raw inspection payload when one is given (and setting the
marketplace flag when requested), and reports whether a matching record was
found (`False` when there is no record of the image). -/
def update_aws_image_status_inspected (db : List MachineImageRec)
    (ec2_ami_id : String) (inspection_json : Option String)
    (aws_marketplace_image : Bool) : List MachineImageRec × Bool :=
  match db with
  | [] => ([], false)
  | r :: rest =>
    if r.ec2_ami_id == ec2_ami_id then
      ({ r with
          status := .INSPECTED,
          inspection_json :=
            match inspection_json with
            | some j => some j
            | none => r.inspection_json,
          aws_marketplace_image :=
            aws_marketplace_image || r.aws_marketplace_image } :: rest, true)
    else
      let res := update_aws_image_status_inspected rest ec2_ami_id
        inspection_json aws_marketplace_image
      (r :: res.1, res.2)

/-- `persist_aws_inspection_cluster_results` (tasks.py lines 869-897): raise
`InvalidHoundigradeJsonFormat` when the "images" key is missing, otherwise
update each listed image to INSPECTED with its serialized payload; an id with
no matching record is logged and skipped (the `save_success = False` branch
only logs). -/
def persist_aws_inspection_cluster_results (db : List MachineImageRec)
    (inspection_results : InspectionResults) :
    Except HoundigradeResultsError (List MachineImageRec) :=
  match inspection_results.images with
  | none => .error .invalid_houndigrade_json_format
  | some images =>
    .ok (images.foldl
      (fun acc entry =>
        (update_aws_image_status_inspected acc entry.1
          (some (json_dumps entry.2)) false).1)
      db)

theorem find_update_inspected_other (db : List MachineImageRec)
    (ec2_ami_id other : String) (j : Option String) (f : Bool)
    (hne : other ≠ ec2_ami_id) :
    find_image (update_aws_image_status_inspected db ec2_ami_id j f).1 other
      = find_image db other := by
  induction db with
  | nil => rfl
  | cons r rest ih =>
    by_cases h : r.ec2_ami_id == ec2_ami_id
    · have h2 : (r.ec2_ami_id == other) = false := by
        rw [beq_eq_false_iff_ne]
        intro hro
        exact hne (hro ▸ (beq_iff_eq.mp h))
      simp [update_aws_image_status_inspected, find_image, List.find?, h, h2]
    · by_cases h3 : r.ec2_ami_id == other
      · simp [update_aws_image_status_inspected, find_image, List.find?, h, h3]
      · simp only [update_aws_image_status_inspected, h, if_false,
          Bool.false_eq_true]
        simp only [find_image, List.find?, h3] at ih ⊢
        exact ih

theorem image_exists_update_inspected (db : List MachineImageRec)
    (ec2_ami_id other : String) (j : Option String) (f : Bool) :
    image_exists
        (update_aws_image_status_inspected db ec2_ami_id j f).1 other
      = image_exists db other := by
  induction db with
  | nil => rfl
  | cons r rest ih =>
    by_cases h : r.ec2_ami_id == ec2_ami_id
    · have hk : ({ r with
          status := .INSPECTED,
          inspection_json := match j with | some v => some v | none => r.inspection_json,
          aws_marketplace_image := f || r.aws_marketplace_image }
            : MachineImageRec).ec2_ami_id = r.ec2_ami_id := rfl
      by_cases h3 : r.ec2_ami_id == other
      · simp [update_aws_image_status_inspected, image_exists, find_image,
          List.find?, h, h3]
      · simp [update_aws_image_status_inspected, image_exists, find_image,
          List.find?, h, h3]
    · by_cases h3 : r.ec2_ami_id == other
      · simp [update_aws_image_status_inspected, image_exists, find_image,
          List.find?, h, h3]
      · simp only [update_aws_image_status_inspected, h, if_false,
          Bool.false_eq_true]
        simp only [image_exists, find_image, List.find?, h3] at ih ⊢
        exact ih

theorem update_inspected_self (db : List MachineImageRec)
    (ec2_ami_id : String) (j : String) (f : Bool)
    (h : image_exists db ec2_ami_id = true) :
    image_status
        (update_aws_image_status_inspected db ec2_ami_id (some j) f).1
        ec2_ami_id = some .INSPECTED ∧
    image_inspection_json
        (update_aws_image_status_inspected db ec2_ami_id (some j) f).1
        ec2_ami_id = some (some j) := by
  induction db with
  | nil => exact absurd h (by simp [image_exists, find_image])
  | cons r rest ih =>
    by_cases hk : r.ec2_ami_id == ec2_ami_id
    · simp [update_aws_image_status_inspected, image_status,
        image_inspection_json, find_image, List.find?, hk]
    · have h2 : image_exists rest ec2_ami_id = true := by
        simpa [image_exists, find_image, List.find?, hk] using h
      have := ih h2
      simp only [update_aws_image_status_inspected, hk, if_false,
        Bool.false_eq_true]
      simpa [image_status, image_inspection_json, find_image, List.find?, hk]
        using this

theorem persist_fold_find_other (images : List (String × String))
    (db : List MachineImageRec) (ec2_ami_id : String)
    (hne : ∀ entry ∈ images, entry.1 ≠ ec2_ami_id) :
    find_image
        (images.foldl (fun acc entry =>
          (update_aws_image_status_inspected acc entry.1
            (some (json_dumps entry.2)) false).1) db) ec2_ami_id
      = find_image db ec2_ami_id := by
  induction images generalizing db with
  | nil => rfl
  | cons entry rest ih =>
    rw [List.foldl_cons]
    rw [ih _ (fun x hx => hne x (List.mem_cons_of_mem _ hx))]
    exact find_update_inspected_other db entry.1 ec2_ami_id _ _
      (fun hx => absurd hx.symm (hne entry (List.mem_cons_self _ _)))

theorem persist_fold_image_exists (images : List (String × String))
    (db : List MachineImageRec) (ec2_ami_id : String) :
    image_exists
        (images.foldl (fun acc entry =>
          (update_aws_image_status_inspected acc entry.1
            (some (json_dumps entry.2)) false).1) db) ec2_ami_id
      = image_exists db ec2_ami_id := by
  induction images generalizing db with
  | nil => rfl
  | cons entry rest ih =>
    rw [List.foldl_cons, ih]
    exact image_exists_update_inspected db entry.1 ec2_ami_id _ _

theorem persist_fold_updates (images : List (String × String))
    (db : List MachineImageRec) (ec2_ami_id js : String)
    (hnodup : (images.map Prod.fst).Nodup)
    (hmem : (ec2_ami_id, js) ∈ images)
    (hex : image_exists db ec2_ami_id = true) :
    image_status
        (images.foldl (fun acc entry =>
          (update_aws_image_status_inspected acc entry.1
            (some (json_dumps entry.2)) false).1) db) ec2_ami_id
      = some .INSPECTED ∧
    image_inspection_json
        (images.foldl (fun acc entry =>
          (update_aws_image_status_inspected acc entry.1
            (some (json_dumps entry.2)) false).1) db) ec2_ami_id
      = some (some (json_dumps js)) := by
  induction images generalizing db with
  | nil => exact absurd hmem (List.not_mem_nil _)
  | cons entry rest ih =>
    rw [List.map_cons, List.nodup_cons] at hnodup
    rcases List.mem_cons.mp hmem with hx | hx
    · cases hx
      rw [List.foldl_cons]
      have hkeys : ∀ e ∈ rest, e.1 ≠ ec2_ami_id := by
        intro e he hkey
        have hin : e.1 ∈ rest.map Prod.fst := List.mem_map_of_mem Prod.fst he
        rw [hkey] at hin
        exact hnodup.1 hin
      have hupd := update_inspected_self db ec2_ami_id (json_dumps js) false
        hex
      have hfind := persist_fold_find_other rest
        (update_aws_image_status_inspected db ec2_ami_id
          (some (json_dumps js)) false).1 ec2_ami_id hkeys
      constructor
      · rw [image_status, hfind]
        exact hupd.1
      · rw [image_inspection_json, hfind]
        exact hupd.2
    · have hne : entry.1 ≠ ec2_ami_id := by
        intro hkey
        have hin : ec2_ami_id ∈ rest.map Prod.fst := by
          have := List.mem_map_of_mem Prod.fst hx
          simpa using this
        rw [hkey] at hnodup
        exact hnodup.1 hin
      rw [List.foldl_cons]
      apply ih _ hnodup.2 hx
      rw [image_exists_update_inspected]
      exact hex

/-- Claim C8: `persist_aws_inspection_cluster_results` raises the
malformed-input error if and only if the payload has no "images" key; when
the key is present it never raises: every listed id with a matching record is
updated to INSPECTED with the serialized inspection payload attached, ids
with no matching record are skipped without creating a record, and images not
listed are untouched. -/
theorem persist_results_spec (db : List MachineImageRec)
    (res : InspectionResults)
    (hnodup : ∀ images, res.images = some images →
      (images.map Prod.fst).Nodup) :
    (persist_aws_inspection_cluster_results db res
        = .error .invalid_houndigrade_json_format ↔ res.images = none) ∧
    (∀ images db2, res.images = some images →
      persist_aws_inspection_cluster_results db res = .ok db2 →
      (∀ ec2_ami_id js, (ec2_ami_id, js) ∈ images →
        image_exists db ec2_ami_id = true →
        image_status db2 ec2_ami_id = some .INSPECTED ∧
        image_inspection_json db2 ec2_ami_id
          = some (some (json_dumps js))) ∧
      (∀ ec2_ami_id, image_exists db ec2_ami_id = false →
        image_exists db2 ec2_ami_id = false) ∧
      (∀ ec2_ami_id, (∀ entry ∈ images, entry.1 ≠ ec2_ami_id) →
        find_image db2 ec2_ami_id = find_image db ec2_ami_id)) := by
  constructor
  · cases hres : res.images with
    | none =>
      simp [persist_aws_inspection_cluster_results, hres]
    | some images =>
      simp [persist_aws_inspection_cluster_results, hres]
  · intro images db2 hres hok
    rw [persist_aws_inspection_cluster_results, hres] at hok
    injection hok with hdb2
    subst hdb2
    refine ⟨?_, ?_, ?_⟩
    · intro ec2_ami_id js hmem hex
      exact persist_fold_updates images db ec2_ami_id js
        (hnodup images hres) hmem hex
    · intro ec2_ami_id hex
      rw [persist_fold_image_exists]
      exact hex
    · intro ec2_ami_id hne
      exact persist_fold_find_other images db ec2_ami_id hne

/-- Witness for C8 at a concrete input: one matching image is updated, one
listed id without a record is skipped, one unlisted image is untouched. -/
theorem persist_results_spec_witness :
    (image_status
      [MachineImageRec.mk "ami-01" .INSPECTED (some "details-1") false,
       MachineImageRec.mk "ami-03" .PENDING none false] "ami-01"
        = some ImageStatus.INSPECTED ∧
     image_inspection_json
      [MachineImageRec.mk "ami-01" .INSPECTED (some "details-1") false,
       MachineImageRec.mk "ami-03" .PENDING none false] "ami-01"
        = some (some (json_dumps "details-1"))) ∧
    image_exists
      [MachineImageRec.mk "ami-01" .INSPECTED (some "details-1") false,
       MachineImageRec.mk "ami-03" .PENDING none false] "ami-02" = false ∧
    find_image
      [MachineImageRec.mk "ami-01" .INSPECTED (some "details-1") false,
       MachineImageRec.mk "ami-03" .PENDING none false] "ami-03"
      = find_image
      [MachineImageRec.mk "ami-01" .INSPECTING none false,
       MachineImageRec.mk "ami-03" .PENDING none false] "ami-03" := by
  have h := persist_results_spec
    [MachineImageRec.mk "ami-01" .INSPECTING none false,
     MachineImageRec.mk "ami-03" .PENDING none false]
    (InspectionResults.mk (some [("ami-01", "details-1"),
      ("ami-02", "details-2")]))
    (by intro images hi; cases hi; decide)
  have h2 := h.2 [("ami-01", "details-1"), ("ami-02", "details-2")]
    [MachineImageRec.mk "ami-01" .INSPECTED (some "details-1") false,
     MachineImageRec.mk "ami-03" .PENDING none false] rfl rfl
  refine ⟨?_, ?_, ?_⟩
  · exact h2.1 "ami-01" "details-1" (by decide) (by decide)
  · exact h2.2.1 "ami-02" (by decide)
  · exact h2.2.2 "ami-03" (by decide)

/-- Claim C10: a payload whose "images" key maps to an empty dictionary is a
no-op success: no error is raised and the database is returned unchanged;
only a payload lacking the key entirely is rejected. -/
theorem persist_results_empty_images_noop (db : List MachineImageRec) :
    persist_aws_inspection_cluster_results db (InspectionResults.mk (some []))
      = .ok db ∧
    persist_aws_inspection_cluster_results db (InspectionResults.mk none)
      = .error .invalid_houndigrade_json_format :=
  ⟨rfl, rfl⟩

/-! ## Audit-log reconciler: _extract_ami_ids_by_tag_change
(tasks.py lines 1438-1472) -/

/-- A `CloudTrailImageTagEvent`: the fields the tag-resolution code reads
(the source field named `exists` is a Lean keyword, hence `tag_exists`
here). -/
structure CloudTrailImageTagEvent where
  ec2_ami_id : String
  tag : String
  tag_exists : Bool
  occurred_at : Nat
deriving DecidableEq, Repr

/-- Modelled from the spec: the two classification tags (util.aws RHEL_TAG /
OPENSHIFT_TAG are not under src); only their distinctness matters here. -/
def RHEL_TAG : String := "cloudigrade-rhel-tag"

/-- Modelled from the spec: see RHEL_TAG. -/
def OPENSHIFT_TAG : String := "cloudigrade-ocp-tag"

/-- The longest prefix of consecutive elements whose key equals k (the head
group body of Python itertools.groupby). -/
def takeGroup (key : α → String) (k : String) : List α → List α
  | [] => []
  | e :: es => if key e = k then e :: takeGroup key k es else []

/-- What remains after the consecutive head run of key k. -/
def dropGroup (key : α → String) (k : String) : List α → List α
  | [] => []
  | e :: es => if key e = k then dropGroup key k es else e :: es

theorem dropGroup_length_le (key : α → String) (k : String) (l : List α) :
    (dropGroup key k l).length ≤ l.length := by
  induction l with
  | nil => simp [dropGroup]
  | cons e es ih =>
    simp only [dropGroup]
    split
    · exact Nat.le_succ_of_le ih
    · simp

/-- Python itertools.groupby: consecutive runs of equal keys, with the run
key. -/
def groupby (key : α → String) : List α → List (String × List α)
  | [] => []
  | e :: es =>
    (key e, e :: takeGroup key (key e) es)
      :: groupby key (dropGroup key (key e) es)
termination_by l => l.length
decreasing_by
  simp only [List.length_cons]
  exact Nat.lt_succ_of_le (dropGroup_length_le _ _ _)

theorem takeGroup_key (key : α → String) (k : String) (l : List α) (e : α)
    (he : e ∈ takeGroup key k l) : key e = k := by
  induction l with
  | nil => exact absurd he (List.not_mem_nil _)
  | cons x xs ih =>
    unfold takeGroup at he
    by_cases h : key x = k
    · rw [if_pos h] at he
      rcases List.mem_cons.mp he with h1 | h1
      · exact h1 ▸ h
      · exact ih h1
    · rw [if_neg h] at he
      exact absurd he (List.not_mem_nil _)

theorem takeGroup_append_dropGroup (key : α → String) (k : String)
    (l : List α) : takeGroup key k l ++ dropGroup key k l = l := by
  induction l with
  | nil => rfl
  | cons x xs ih =>
    unfold takeGroup dropGroup
    by_cases h : key x = k
    · rw [if_pos h, if_pos h, List.cons_append, ih]
    · rw [if_neg h, if_neg h, List.nil_append]

/-- Every element of the list lands in a group carrying its key. -/
theorem groupby_mem (key : α → String) (l : List α) (e : α) (he : e ∈ l) :
    ∃ p ∈ groupby key l, p.1 = key e ∧ e ∈ p.2 := by
  induction l using groupby.induct key with
  | case1 => exact absurd he (List.not_mem_nil _)
  | case2 x es ih =>
    rcases List.mem_cons.mp he with h1 | h1
    · subst h1
      exact ⟨(key e, e :: takeGroup key (key e) es), by
        unfold groupby
        exact List.mem_cons_self _ _, rfl, List.mem_cons_self _ _⟩
    · rcases List.mem_append.mp
        ((takeGroup_append_dropGroup key (key x) es).symm ▸ h1) with h2 | h2
      · refine ⟨(key x, x :: takeGroup key (key x) es), by
          unfold groupby
          exact List.mem_cons_self _ _, ?_, List.mem_cons_of_mem _ h2⟩
        exact (takeGroup_key key (key x) es e h2).symm
      · obtain ⟨p, hp, hpk, hpe⟩ := ih h2
        exact ⟨p, by
          unfold groupby
          exact List.mem_cons_of_mem _ hp, hpk, hpe⟩

/-- Stable insertion by occurred_at (later-inserted elements go after equal
keys), building Python sorted(..., key=occurred_at). -/
def insertByOccurredAt (e : CloudTrailImageTagEvent) :
    List CloudTrailImageTagEvent → List CloudTrailImageTagEvent
  | [] => [e]
  | x :: xs =>
    if e.occurred_at < x.occurred_at then e :: x :: xs
    else x :: insertByOccurredAt e xs

/-- Python `sorted(events, key=lambda e: e.occurred_at)` (stable ascending
sort). -/
def sortByOccurredAt (l : List CloudTrailImageTagEvent) :
    List CloudTrailImageTagEvent :=
  l.foldl (fun acc e => insertByOccurredAt e acc) []

theorem insertByOccurredAt_length (e : CloudTrailImageTagEvent)
    (l : List CloudTrailImageTagEvent) :
    (insertByOccurredAt e l).length = l.length + 1 := by
  induction l with
  | nil => rfl
  | cons x xs ih =>
    unfold insertByOccurredAt
    split
    · simp
    · simp [ih]

theorem sortByOccurredAt_length (l : List CloudTrailImageTagEvent) :
    (sortByOccurredAt l).length = l.length := by
  have h : ∀ (l2 : List CloudTrailImageTagEvent)
      (acc : List CloudTrailImageTagEvent),
      (l2.foldl (fun acc e => insertByOccurredAt e acc) acc).length
        = acc.length + l2.length := by
    intro l2
    induction l2 with
    | nil => intro acc; simp
    | cons x xs ih =>
      intro acc
      rw [List.foldl_cons, ih, insertByOccurredAt_length, List.length_cons]
      omega
  have := h l []
  simpa [sortByOccurredAt] using this

/-- One step of the inner loop of `_extract_ami_ids_by_tag_change` (tasks.py
lines 1465-1471): stop looking for tag changes for this AMI after one is
found. -/
def tag_change_step (ec2_ami_id : String)
    (acc : List String × List String) (event : CloudTrailImageTagEvent) :
    List String × List String :=
  if ec2_ami_id ∉ acc.1 ∧ ec2_ami_id ∉ acc.2 then
    if event.tag_exists then (ec2_ami_id :: acc.1, acc.2)
    else (acc.1, ec2_ami_id :: acc.2)
  else acc

/-- The per-group body of `_extract_ami_ids_by_tag_change` (tasks.py lines
1458-1471): keep only events for the tag, order them by occurred_at, then
walk them latest-first. -/
def tag_change_group (tag : String) (acc : List String × List String)
    (g : String × List CloudTrailImageTagEvent) :
    List String × List String :=
  ((sortByOccurredAt (g.2.filter (fun e => e.tag == tag))).reverse).foldl
    (tag_change_step g.1) acc

/-- `_extract_ami_ids_by_tag_change` (tasks.py lines 1438-1472): group the
events by AMI id (consecutive runs, itertools.groupby), keep only events for
the given tag, sort by occurred_at and take the most recent change per AMI;
returns (tagged AMI ids, untagged AMI ids). Python sets are modelled as lists
with membership checks (the loop guard already prevents duplicates). -/
def _extract_ami_ids_by_tag_change
    (ami_tag_events : List CloudTrailImageTagEvent) (tag : String) :
    List String × List String :=
  (groupby (fun e => e.ec2_ami_id) ami_tag_events).foldl
    (tag_change_group tag) ([], [])

def pair_disjoint (p : List String × List String) : Prop :=
  ∀ a, ¬(a ∈ p.1 ∧ a ∈ p.2)

theorem tag_change_step_mono (k : String) (acc : List String × List String)
    (e : CloudTrailImageTagEvent) (a : String) :
    (a ∈ acc.1 → a ∈ (tag_change_step k acc e).1) ∧
    (a ∈ acc.2 → a ∈ (tag_change_step k acc e).2) := by
  unfold tag_change_step
  split
  · split
    · exact ⟨fun h => List.mem_cons_of_mem _ h, fun h => h⟩
    · exact ⟨fun h => h, fun h => List.mem_cons_of_mem _ h⟩
  · exact ⟨fun h => h, fun h => h⟩

theorem tag_change_innerfold_mono (k : String)
    (l : List CloudTrailImageTagEvent) (acc : List String × List String)
    (a : String) :
    (a ∈ acc.1 → a ∈ (l.foldl (tag_change_step k) acc).1) ∧
    (a ∈ acc.2 → a ∈ (l.foldl (tag_change_step k) acc).2) := by
  induction l generalizing acc with
  | nil => exact ⟨fun h => h, fun h => h⟩
  | cons e rest ih =>
    rw [List.foldl_cons]
    exact ⟨fun h => (ih _).1 ((tag_change_step_mono k acc e a).1 h),
      fun h => (ih _).2 ((tag_change_step_mono k acc e a).2 h)⟩

theorem tag_change_step_subset (k : String)
    (acc : List String × List String) (e : CloudTrailImageTagEvent)
    (a : String) :
    (a ∈ (tag_change_step k acc e).1 → a = k ∨ a ∈ acc.1) ∧
    (a ∈ (tag_change_step k acc e).2 → a = k ∨ a ∈ acc.2) := by
  unfold tag_change_step
  split
  · split
    · exact ⟨fun h => List.mem_cons.mp h, fun h => Or.inr h⟩
    · exact ⟨fun h => Or.inr h, fun h => List.mem_cons.mp h⟩
  · exact ⟨fun h => Or.inr h, fun h => Or.inr h⟩

theorem tag_change_innerfold_subset (k : String)
    (l : List CloudTrailImageTagEvent) (acc : List String × List String)
    (a : String) :
    (a ∈ (l.foldl (tag_change_step k) acc).1 → a = k ∨ a ∈ acc.1) ∧
    (a ∈ (l.foldl (tag_change_step k) acc).2 → a = k ∨ a ∈ acc.2) := by
  induction l generalizing acc with
  | nil => exact ⟨fun h => Or.inr h, fun h => Or.inr h⟩
  | cons e rest ih =>
    rw [List.foldl_cons]
    constructor
    · intro h
      rcases (ih _).1 h with h1 | h1
      · exact Or.inl h1
      · exact (tag_change_step_subset k acc e a).1 h1
    · intro h
      rcases (ih _).2 h with h1 | h1
      · exact Or.inl h1
      · exact (tag_change_step_subset k acc e a).2 h1

theorem tag_change_step_disjoint (k : String)
    (acc : List String × List String) (e : CloudTrailImageTagEvent)
    (h : pair_disjoint acc) : pair_disjoint (tag_change_step k acc e) := by
  unfold tag_change_step
  split
  · rename_i hg
    split
    · intro a ⟨ha1, ha2⟩
      rcases List.mem_cons.mp ha1 with h1 | h1
      · exact hg.2 (h1 ▸ ha2)
      · exact h a ⟨h1, ha2⟩
    · intro a ⟨ha1, ha2⟩
      rcases List.mem_cons.mp ha2 with h1 | h1
      · exact hg.1 (h1 ▸ ha1)
      · exact h a ⟨ha1, h1⟩
  · exact h

theorem tag_change_innerfold_disjoint (k : String)
    (l : List CloudTrailImageTagEvent) (acc : List String × List String)
    (h : pair_disjoint acc) :
    pair_disjoint (l.foldl (tag_change_step k) acc) := by
  induction l generalizing acc with
  | nil => exact h
  | cons e rest ih =>
    rw [List.foldl_cons]
    exact ih _ (tag_change_step_disjoint k acc e h)

theorem tag_change_step_in (k : String) (acc : List String × List String)
    (e : CloudTrailImageTagEvent) :
    k ∈ (tag_change_step k acc e).1 ∨ k ∈ (tag_change_step k acc e).2 := by
  unfold tag_change_step
  by_cases hg : k ∉ acc.1 ∧ k ∉ acc.2
  · rw [if_pos hg]
    cases he : e.tag_exists
    · exact Or.inr (by simp)
    · exact Or.inl (by simp)
  · rw [if_neg hg]
    rcases Decidable.not_and_iff_or_not.mp hg with h1 | h1
    · exact Or.inl (Decidable.not_not.mp h1)
    · exact Or.inr (Decidable.not_not.mp h1)

theorem tag_change_innerfold_in (k : String)
    (l : List CloudTrailImageTagEvent) (acc : List String × List String)
    (hl : l ≠ []) :
    k ∈ (l.foldl (tag_change_step k) acc).1 ∨
      k ∈ (l.foldl (tag_change_step k) acc).2 := by
  cases l with
  | nil => exact absurd rfl hl
  | cons e rest =>
    rw [List.foldl_cons]
    rcases tag_change_step_in k acc e with h1 | h1
    · exact Or.inl ((tag_change_innerfold_mono k rest _ k).1 h1)
    · exact Or.inr ((tag_change_innerfold_mono k rest _ k).2 h1)

theorem tag_change_outerfold_mono (tag : String)
    (gs : List (String × List CloudTrailImageTagEvent))
    (acc : List String × List String) (a : String) :
    (a ∈ acc.1 → a ∈ (gs.foldl (tag_change_group tag) acc).1) ∧
    (a ∈ acc.2 → a ∈ (gs.foldl (tag_change_group tag) acc).2) := by
  induction gs generalizing acc with
  | nil => exact ⟨fun h => h, fun h => h⟩
  | cons g rest ih =>
    rw [List.foldl_cons]
    exact ⟨fun h => (ih _).1 ((tag_change_innerfold_mono g.1 _ acc a).1 h),
      fun h => (ih _).2 ((tag_change_innerfold_mono g.1 _ acc a).2 h)⟩

theorem tag_change_outerfold_disjoint (tag : String)
    (gs : List (String × List CloudTrailImageTagEvent))
    (acc : List String × List String) (h : pair_disjoint acc) :
    pair_disjoint (gs.foldl (tag_change_group tag) acc) := by
  induction gs generalizing acc with
  | nil => exact h
  | cons g rest ih =>
    rw [List.foldl_cons]
    exact ih _ (tag_change_innerfold_disjoint g.1 _ acc h)

theorem tag_change_group_in (tag : String)
    (acc : List String × List String)
    (g : String × List CloudTrailImageTagEvent)
    (hne : g.2.filter (fun e => e.tag == tag) ≠ []) :
    g.1 ∈ (tag_change_group tag acc g).1 ∨
      g.1 ∈ (tag_change_group tag acc g).2 := by
  unfold tag_change_group
  apply tag_change_innerfold_in
  intro hrev
  apply hne
  have hsort : sortByOccurredAt (g.2.filter (fun e => e.tag == tag)) = [] :=
    List.reverse_eq_nil_iff.mp hrev
  have hlen := sortByOccurredAt_length (g.2.filter (fun e => e.tag == tag))
  rw [hsort] at hlen
  exact List.length_eq_zero.mp hlen.symm

theorem tag_change_outerfold_in (tag : String)
    (gs : List (String × List CloudTrailImageTagEvent))
    (acc : List String × List String) (k : String)
    (evs : List CloudTrailImageTagEvent) (hmem : (k, evs) ∈ gs)
    (hne : evs.filter (fun e => e.tag == tag) ≠ []) :
    k ∈ (gs.foldl (tag_change_group tag) acc).1 ∨
      k ∈ (gs.foldl (tag_change_group tag) acc).2 := by
  induction gs generalizing acc with
  | nil => exact absurd hmem (List.not_mem_nil _)
  | cons g rest ih =>
    rw [List.foldl_cons]
    rcases List.mem_cons.mp hmem with h1 | h1
    · subst h1
      rcases tag_change_group_in tag acc (k, evs) hne with h2 | h2
      · exact Or.inl ((tag_change_outerfold_mono tag rest _ k).1 h2)
      · exact Or.inr ((tag_change_outerfold_mono tag rest _ k).2 h2)
    · exact ih _ h1

/-- Claim C9: for every list of tag events and every tag, the two sets
returned by `_extract_ami_ids_by_tag_change` are disjoint, and every AMI id
having at least one event for that tag appears in exactly one of the two
sets. -/
theorem extract_ami_ids_partition
    (ami_tag_events : List CloudTrailImageTagEvent) (tag : String) :
    (∀ a, ¬(a ∈ (_extract_ami_ids_by_tag_change ami_tag_events tag).1 ∧
        a ∈ (_extract_ami_ids_by_tag_change ami_tag_events tag).2)) ∧
    (∀ a, (∃ e ∈ ami_tag_events, e.ec2_ami_id = a ∧ e.tag = tag) →
      (a ∈ (_extract_ami_ids_by_tag_change ami_tag_events tag).1 ∧
        a ∉ (_extract_ami_ids_by_tag_change ami_tag_events tag).2) ∨
      (a ∈ (_extract_ami_ids_by_tag_change ami_tag_events tag).2 ∧
        a ∉ (_extract_ami_ids_by_tag_change ami_tag_events tag).1)) := by
  have hdisj : pair_disjoint (_extract_ami_ids_by_tag_change
      ami_tag_events tag) := by
    apply tag_change_outerfold_disjoint
    intro a ⟨h1, _⟩
    exact absurd h1 (List.not_mem_nil _)
  refine ⟨hdisj, ?_⟩
  intro a ⟨e, he, heid, hetag⟩
  obtain ⟨p, hp, hpk, hpe⟩ :=
    groupby_mem (fun e => e.ec2_ami_id) ami_tag_events e he
  have hne : p.2.filter (fun x => x.tag == tag) ≠ [] := by
    intro hnil
    have : e ∈ p.2.filter (fun x => x.tag == tag) :=
      List.mem_filter.mpr ⟨hpe, by rw [hetag]; exact beq_self_eq_true tag⟩
    rw [hnil] at this
    exact absurd this (List.not_mem_nil _)
  have hin := tag_change_outerfold_in tag
    (groupby (fun e => e.ec2_ami_id) ami_tag_events) ([], []) p.1 p.2
    (by rw [show ((p.1, p.2) : String × List CloudTrailImageTagEvent) = p
        from rfl]
        exact hp) hne
  rw [hpk, heid] at hin
  rcases hin with h1 | h1
  · exact Or.inl ⟨h1, fun h2 => hdisj a ⟨h1, h2⟩⟩
  · exact Or.inr ⟨h1, fun h2 => hdisj a ⟨h2, h1⟩⟩

/-- Witness for C9 at a concrete input: two AMIs with events for the RHEL
tag, one of them ending tagged, and an AMI with only OpenShift-tag events. -/
theorem extract_ami_ids_partition_witness :
    (¬("ami-01" ∈ (_extract_ami_ids_by_tag_change
        [CloudTrailImageTagEvent.mk "ami-01" RHEL_TAG true 10,
         CloudTrailImageTagEvent.mk "ami-02" RHEL_TAG false 11,
         CloudTrailImageTagEvent.mk "ami-03" OPENSHIFT_TAG true 12]
        RHEL_TAG).1 ∧
      "ami-01" ∈ (_extract_ami_ids_by_tag_change
        [CloudTrailImageTagEvent.mk "ami-01" RHEL_TAG true 10,
         CloudTrailImageTagEvent.mk "ami-02" RHEL_TAG false 11,
         CloudTrailImageTagEvent.mk "ami-03" OPENSHIFT_TAG true 12]
        RHEL_TAG).2)) ∧
    (("ami-01" ∈ (_extract_ami_ids_by_tag_change
        [CloudTrailImageTagEvent.mk "ami-01" RHEL_TAG true 10,
         CloudTrailImageTagEvent.mk "ami-02" RHEL_TAG false 11,
         CloudTrailImageTagEvent.mk "ami-03" OPENSHIFT_TAG true 12]
        RHEL_TAG).1 ∧
      "ami-01" ∉ (_extract_ami_ids_by_tag_change
        [CloudTrailImageTagEvent.mk "ami-01" RHEL_TAG true 10,
         CloudTrailImageTagEvent.mk "ami-02" RHEL_TAG false 11,
         CloudTrailImageTagEvent.mk "ami-03" OPENSHIFT_TAG true 12]
        RHEL_TAG).2) ∨
     ("ami-01" ∈ (_extract_ami_ids_by_tag_change
        [CloudTrailImageTagEvent.mk "ami-01" RHEL_TAG true 10,
         CloudTrailImageTagEvent.mk "ami-02" RHEL_TAG false 11,
         CloudTrailImageTagEvent.mk "ami-03" OPENSHIFT_TAG true 12]
        RHEL_TAG).2 ∧
      "ami-01" ∉ (_extract_ami_ids_by_tag_change
        [CloudTrailImageTagEvent.mk "ami-01" RHEL_TAG true 10,
         CloudTrailImageTagEvent.mk "ami-02" RHEL_TAG false 11,
         CloudTrailImageTagEvent.mk "ami-03" OPENSHIFT_TAG true 12]
        RHEL_TAG).1)) := by
  constructor
  · exact (extract_ami_ids_partition
      [CloudTrailImageTagEvent.mk "ami-01" RHEL_TAG true 10,
       CloudTrailImageTagEvent.mk "ami-02" RHEL_TAG false 11,
       CloudTrailImageTagEvent.mk "ami-03" OPENSHIFT_TAG true 12]
      RHEL_TAG).1 "ami-01"
  · exact (extract_ami_ids_partition
      [CloudTrailImageTagEvent.mk "ami-01" RHEL_TAG true 10,
       CloudTrailImageTagEvent.mk "ami-02" RHEL_TAG false 11,
       CloudTrailImageTagEvent.mk "ami-03" OPENSHIFT_TAG true 12]
      RHEL_TAG).2 "ami-01"
      ⟨CloudTrailImageTagEvent.mk "ami-01" RHEL_TAG true 10,
        by decide, rfl, rfl⟩

/-- Claim C7: tag resolution is last-write-wins per image and tag: a
create-delete-create sequence (t1 < t2 < t3) classifies the image as tagged,
and sequences ending in a delete classify it as untagged, for 2-event and
3-event sequences alike, whatever the tag (in particular RHEL or
OpenShift). -/
theorem tag_resolution_last_event_wins (a tag : String) (t1 t2 t3 : Nat)
    (h12 : t1 < t2) (h23 : t2 < t3) :
    _extract_ami_ids_by_tag_change
        [CloudTrailImageTagEvent.mk a tag true t1,
         CloudTrailImageTagEvent.mk a tag false t2,
         CloudTrailImageTagEvent.mk a tag true t3] tag = ([a], []) ∧
    _extract_ami_ids_by_tag_change
        [CloudTrailImageTagEvent.mk a tag false t1,
         CloudTrailImageTagEvent.mk a tag true t2,
         CloudTrailImageTagEvent.mk a tag false t3] tag = ([], [a]) ∧
    _extract_ami_ids_by_tag_change
        [CloudTrailImageTagEvent.mk a tag true t1,
         CloudTrailImageTagEvent.mk a tag false t2] tag = ([], [a]) ∧
    _extract_ami_ids_by_tag_change
        [CloudTrailImageTagEvent.mk a tag false t1,
         CloudTrailImageTagEvent.mk a tag true t2] tag = ([a], []) := by
  have n21 : ¬ t2 < t1 := Nat.lt_asymm h12
  have n31 : ¬ t3 < t1 := Nat.lt_asymm (Nat.lt_trans h12 h23)
  have n32 : ¬ t3 < t2 := Nat.lt_asymm h23
  refine ⟨?_, ?_, ?_, ?_⟩ <;>
    simp [_extract_ami_ids_by_tag_change, groupby, takeGroup, dropGroup,
      tag_change_group, sortByOccurredAt, insertByOccurredAt,
      tag_change_step, n21, n31, n32]

/-- Witness for C7 at concrete inputs: both tag kinds with timestamps
1 < 2 < 3. -/
theorem tag_resolution_last_event_wins_witness :
    (_extract_ami_ids_by_tag_change
        [CloudTrailImageTagEvent.mk "ami-01" RHEL_TAG true 1,
         CloudTrailImageTagEvent.mk "ami-01" RHEL_TAG false 2,
         CloudTrailImageTagEvent.mk "ami-01" RHEL_TAG true 3] RHEL_TAG
      = (["ami-01"], []) ∧
     _extract_ami_ids_by_tag_change
        [CloudTrailImageTagEvent.mk "ami-01" RHEL_TAG true 1,
         CloudTrailImageTagEvent.mk "ami-01" RHEL_TAG false 2] RHEL_TAG
      = ([], ["ami-01"])) ∧
    (_extract_ami_ids_by_tag_change
        [CloudTrailImageTagEvent.mk "ami-01" OPENSHIFT_TAG true 1,
         CloudTrailImageTagEvent.mk "ami-01" OPENSHIFT_TAG false 2,
         CloudTrailImageTagEvent.mk "ami-01" OPENSHIFT_TAG true 3]
        OPENSHIFT_TAG
      = (["ami-01"], []) ∧
     _extract_ami_ids_by_tag_change
        [CloudTrailImageTagEvent.mk "ami-01" OPENSHIFT_TAG false 1,
         CloudTrailImageTagEvent.mk "ami-01" OPENSHIFT_TAG true 2]
        OPENSHIFT_TAG
      = (["ami-01"], [])) := by
  constructor
  · exact ⟨(tag_resolution_last_event_wins "ami-01" RHEL_TAG 1 2 3
      (by decide) (by decide)).1,
      (tag_resolution_last_event_wins "ami-01" RHEL_TAG 1 2 3
      (by decide) (by decide)).2.2.1⟩
  · exact ⟨(tag_resolution_last_event_wins "ami-01" OPENSHIFT_TAG 1 2 3
      (by decide) (by decide)).1,
      (tag_resolution_last_event_wins "ami-01" OPENSHIFT_TAG 1 2 3
      (by decide) (by decide)).2.2.2⟩
